import Mathlib

/-!
Item store service (`src/server.js`).

A shallow embedding of the Express handlers of `src/server.js` and the
properties of the in-memory item collection `sampleData.items`.

* JSON values (`req.body`, the values of record fields) are the type `Json`.
* A record is a JavaScript object, modelled by the list of its own properties
  in enumeration order (`Obj`).
* The collection `sampleData.items` is a `List Obj`; every handler is a
  function from the request and the collection to the response and the new
  collection.
* The clock (`Date.now()`, `new Date()`) is an input of the handlers that
  read it: a time value in milliseconds since the epoch.
-/

namespace Server

/-! ## JSON values -/

/-- A value produced by `JSON.parse` (the `body-parser` middleware). A number
is carried as the 64-bit pattern of the IEEE-754 double it parses to; the
handlers never compute with numbers, they only compare them. -/
inductive Json where
  | null : Json
  | bool (b : Bool) : Json
  | num (bits : Nat) : Json
  | str (s : String) : Json
  | arr (elems : List Json) : Json
  | obj (members : List (String × Json)) : Json

/-- The own enumerable properties of a JavaScript object, in enumeration
order. -/
abbrev Obj := List (String × Json)

mutual
/-- Structural equality test on JSON values. -/
def Json.beq : Json → Json → Bool
  | .null, .null => true
  | .bool a, .bool b => a == b
  | .num a, .num b => a == b
  | .str a, .str b => a == b
  | .arr a, .arr b => Json.beqList a b
  | .obj a, .obj b => Json.beqMembers a b
  | _, _ => false
/-- Structural equality test on lists of JSON values. -/
def Json.beqList : List Json → List Json → Bool
  | [], [] => true
  | x :: xs, y :: ys => Json.beq x y && Json.beqList xs ys
  | _, _ => false
/-- Structural equality test on property lists. -/
def Json.beqMembers : List (String × Json) → List (String × Json) → Bool
  | [], [] => true
  | (k, x) :: xs, (l, y) :: ys => k == l && Json.beq x y && Json.beqMembers xs ys
  | _, _ => false
end

mutual
theorem Json.beq_iff : ∀ (a b : Json), Json.beq a b = true ↔ a = b
  | .null, b => by cases b <;> simp [Json.beq]
  | .bool x, b => by cases b <;> simp [Json.beq]
  | .num x, b => by cases b <;> simp [Json.beq]
  | .str x, b => by cases b <;> simp [Json.beq]
  | .arr x, b => by
      cases b <;> simp [Json.beq]
      exact Json.beqList_iff x _
  | .obj x, b => by
      cases b <;> simp [Json.beq]
      exact Json.beqMembers_iff x _
theorem Json.beqList_iff : ∀ (a b : List Json), Json.beqList a b = true ↔ a = b
  | [], b => by cases b <;> simp [Json.beqList]
  | x :: xs, b => by
      cases b with
      | nil => simp [Json.beqList]
      | cons y ys => simp [Json.beqList, Json.beq_iff x y, Json.beqList_iff xs ys]
theorem Json.beqMembers_iff :
    ∀ (a b : List (String × Json)), Json.beqMembers a b = true ↔ a = b
  | [], b => by cases b <;> simp [Json.beqMembers]
  | (k, x) :: xs, b => by
      cases b with
      | nil => simp [Json.beqMembers]
      | cons y ys =>
        obtain ⟨l, y⟩ := y
        simp [Json.beqMembers, Json.beq_iff x y, Json.beqMembers_iff xs ys, and_assoc]
end

instance : DecidableEq Json := fun a b => decidable_of_iff _ (Json.beq_iff a b)

/-! ## Objects: property lookup, assignment and spread -/

/-- The value of `o[k]` for an own property `k`: `none` is `undefined`. -/
def getProp (o : Obj) (k : String) : Option Json :=
  match o with
  | [] => none
  | (k', v) :: rest => if k' = k then some v else getProp rest k

/-- The property names of an object. -/
def keys (o : Obj) : List String := o.map Prod.fst

/-- An array index in the sense of ECMAScript: a property name that is the
canonical decimal form of an integer in `[0, 2^32 - 2]`, that is, a name
that reads as a number below `2^32 - 1` which prints back as the name. Such
properties are enumerated first, in ascending numeric order. -/
def arrayIndex? (k : String) : Option Nat :=
  if toString (k.toList.foldl (fun n c => 10 * n + (c.toNat - 48)) 0) = k
      ∧ k.toList.foldl (fun n c => 10 * n + (c.toNat - 48)) 0 < 2 ^ 32 - 1 then
    some (k.toList.foldl (fun n c => 10 * n + (c.toNat - 48)) 0)
  else none

/-- Add the new array-index property `k` (of index `n`) to an object: it goes
after the array-index properties of smaller index. -/
def insertIndex (n : Nat) (k : String) (v : Json) : Obj → Obj
  | [] => [(k, v)]
  | (k', v') :: rest =>
    match arrayIndex? k' with
    | some m => if m < n then (k', v') :: insertIndex n k v rest else (k, v) :: (k', v') :: rest
    | none => (k, v) :: (k', v') :: rest

/-- Define the data property `k` with value `v` on an object: an existing
property keeps its place in the enumeration order and takes the new value, a
new string-named property goes last, a new array-index property goes in
numeric order among the leading array-index properties. -/
def setProp (o : Obj) (k : String) (v : Json) : Obj :=
  if k ∈ keys o then o.map (fun p => if p.1 = k then (p.1, v) else p)
  else match arrayIndex? k with
    | some n => insertIndex n k v o
    | none => o ++ [(k, v)]

/-- The elements of an array as properties `"i"`, counting from `i`. -/
def indexed (i : Nat) : List Json → Obj
  | [] => []
  | x :: xs => (toString i, x) :: indexed (i + 1) xs

/-- The own enumerable properties that the spread `...v` copies from a value:
those of an object, the indexed elements of an array, the indexed characters of
a string (one property per character: exact for strings of the Basic
Multilingual Plane, where a character is one UTF-16 code unit), and nothing
for `null`, booleans and numbers. -/
def ownEntries : Json → Obj
  | .obj members => members
  | .arr elems => indexed 0 elems
  | .str s => indexed 0 (s.toList.map (fun c => Json.str (String.singleton c)))
  | _ => []

/-- The spread `...src` inside an object literal whose properties so far are
`target`: every own property of `src` is defined on it, in order. -/
def spreadInto (target : Obj) (src : Json) : Obj :=
  (ownEntries src).foldl (fun acc p => setProp acc p.1 p.2) target

/-! ## The clock -/

/-- Left-pad a number with zeros to `w` digits. -/
def pad (w n : Nat) : String :=
  String.mk (List.replicate (w - (toString n).length) '0') ++ toString n

/-- `Date.prototype.toISOString` of a time value `t ≥ 0` (milliseconds since
the epoch, UTC): `YYYY-MM-DDTHH:mm:ss.sssZ`, the year in the expanded form
`+YYYYYY` beyond 9999. -/
def toISOString (t : Nat) : String :=
  let ms := t % 86400000
  let z := t / 86400000 + 719468
  let era := z / 146097
  let doe := z % 146097
  let yoe := (doe - doe / 1460 + doe / 36524 - doe / 146096) / 365
  let doy := doe - (365 * yoe + yoe / 4 - yoe / 100)
  let mp := (5 * doy + 2) / 153
  let d := doy - (153 * mp + 2) / 5 + 1
  let m := if mp < 10 then mp + 3 else mp - 9
  let y := yoe + era * 400 + (if m ≤ 2 then 1 else 0)
  (if y ≤ 9999 then pad 4 y else "+" ++ pad 6 y) ++ "-" ++ pad 2 m ++ "-" ++ pad 2 d
    ++ "T" ++ pad 2 (ms / 3600000) ++ ":" ++ pad 2 (ms / 60000 % 60) ++ ":"
    ++ pad 2 (ms / 1000 % 60) ++ "." ++ pad 3 (ms % 1000) ++ "Z"

/-- `Date.now().toString()`: a time value is an integer below `2^53`, which
`Number.prototype.toString` prints in plain decimal. -/
def nowString (t : Nat) : String := toString t

/-! ## Requests, responses and the handlers -/

/-- What a handler sends: the status code and the JSON body (`none` for
`res.status(204).send()`). -/
structure Response where
  status : Nat
  body : Option Json
deriving DecidableEq

/-- The value `{ message: text }`. -/
def message (text : String) : Json := .obj [("message", .str text)]

/-- The five records of `sampleData.items`; `boot i` is the clock reading of
the `i`-th `new Date()` evaluated when the module is loaded. -/
def sampleData (boot : Nat → Nat) : List Obj :=
  [ [("id", .str "1"), ("name", .str "Elegant Chair"),
     ("description", .str "Comfortable and stylish chair"),
     ("createdAt", .str (toISOString (boot 0)))],
    [("id", .str "2"), ("name", .str "Modern Desk"),
     ("description", .str "Spacious and functional work desk"),
     ("createdAt", .str (toISOString (boot 1)))],
    [("id", .str "3"), ("name", .str "Cozy Rug"),
     ("description", .str "Soft and warm rug for your living room"),
     ("createdAt", .str (toISOString (boot 2)))],
    [("id", .str "4"), ("name", .str "Stylish Lamp"),
     ("description", .str "Modern and elegant table lamp"),
     ("createdAt", .str (toISOString (boot 3)))],
    [("id", .str "5"), ("name", .str "Comfortable Sofa"),
     ("description", .str "Relaxing and spacious sofa"),
     ("createdAt", .str (toISOString (boot 4)))] ]

/-- The errors of `validationResult(req)`: no validation chain is attached to
any route, so the result is empty. -/
def validationResult : List Json := []

/-- The test `item.id === id` against the string `req.params.id`: strict
equality holds for a string value with the same contents only. -/
def idIs (id : String) (item : Obj) : Bool :=
  match getProp item "id" with
  | some (.str s) => s = id
  | _ => false

/-- `Array.prototype.findIndex`; `none` stands for `-1`. -/
def findIndex (p : Obj → Bool) : List Obj → Option Nat
  | [] => none
  | x :: xs => if p x then some 0 else (findIndex p xs).map (· + 1)

/-- The object literal `{ ...item, id: Date.now().toString(), createdAt: new
Date().toISOString() }`, with the two clock readings it takes. -/
def createItem (item : Json) (tId tCreated : Nat) : Obj :=
  setProp (setProp (spreadInto [] item) "id" (.str (nowString tId)))
    "createdAt" (.str (toISOString tCreated))

/-- The `map` of `POST /items` over the elements of an array body, from the
`i`-th element on: the element of index `j` takes the clock readings
`now (2 * j)` and `now (2 * j + 1)`. -/
def createItems (now : Nat → Nat) (i : Nat) : List Json → List Obj
  | [] => []
  | item :: rest => createItem item (now (2 * i)) (now (2 * i + 1)) :: createItems now (i + 1) rest

/-- Handler of `POST /items`; `now k` is the `k`-th clock reading taken while
the request is handled. -/
def postItems (now : Nat → Nat) (body : Json) (items : List Obj) : Response × List Obj :=
  if ¬ validationResult.isEmpty then
    (⟨400, some (.obj [("errors", .arr validationResult)])⟩, items)
  else
    let newItem : List Obj :=
      match body with
      | .arr elems => createItems now 0 elems
      | _ => [createItem body (now 0) (now 1)]
    (⟨201, some (.arr (newItem.map Json.obj))⟩, items ++ newItem)

/-- Handler of `GET /items`. -/
def getItems (items : List Obj) : Response × List Obj :=
  (⟨200, some (.arr (items.map Json.obj))⟩, items)

/-- Handler of `GET /items/:id`. -/
def getItem (id : String) (items : List Obj) : Response × List Obj :=
  match items.find? (idIs id) with
  | none => (⟨404, some (message "Item not found")⟩, items)
  | some item => (⟨200, some (.obj item)⟩, items)

/-- Handler of `PUT /items/:id`; `now` is the clock reading of `new Date()`. -/
def putItem (now : Nat) (id : String) (body : Json) (items : List Obj) :
    Response × List Obj :=
  if ¬ validationResult.isEmpty then
    (⟨400, some (.obj [("errors", .arr validationResult)])⟩, items)
  else
    match findIndex (idIs id) items with
    | none => (⟨404, some (message "Item not found")⟩, items)
    | some index =>
      let updated : Obj :=
        setProp (spreadInto (spreadInto [] (.obj (items.getD index []))) body)
          "createdAt" (.str (toISOString now))
      (⟨200, some (.obj updated)⟩, items.set index updated)

/-- Handler of `DELETE /items/:id`. -/
def deleteItem (id : String) (items : List Obj) : Response × List Obj :=
  match findIndex (idIs id) items with
  | none => (⟨404, some (message "Item not found")⟩, items)
  | some index => (⟨204, none⟩, items.eraseIdx index)

/-- `SameValueZero` on a stored value and an element of a freshly parsed
body: primitives are compared by value (`+0` and `-0` are the same number,
`JSON.parse` yields no `NaN`), while an array or an object is only the same
as itself and the body's are new allocations. -/
def sameValueZero : Json → Json → Bool
  | .null, .null => true
  | .bool a, .bool b => a = b
  | .num a, .num b => a = b ∨ (a % 2 ^ 63 = 0 ∧ b % 2 ^ 63 = 0)
  | .str a, .str b => a = b
  | _, _ => false

/-- The call `idsToDelete.includes(item.id)`: a parsed array holds no
`undefined`, so a record without `id` is never included. -/
def includes (idsToDelete : List Json) (id : Option Json) : Bool :=
  match id with
  | none => false
  | some v => idsToDelete.any (fun x => sameValueZero x v)

/-- Handler of `DELETE /items`. -/
def deleteItems (body : Json) (items : List Obj) : Response × List Obj :=
  match body with
  | .arr idsToDelete =>
    if idsToDelete.length = 0 then (⟨400, some (message "Invalid request body")⟩, items)
    else (⟨204, none⟩, items.filter (fun item => ! includes idsToDelete (getProp item "id")))
  | _ => (⟨400, some (message "Invalid request body")⟩, items)

/-- A request to one of the routes that touch the collection, with the clock
readings taken while it is handled. -/
inductive Request where
  | create (now : Nat → Nat) (body : Json)
  | list
  | get (id : String)
  | update (now : Nat) (id : String) (body : Json)
  | delete (id : String)
  | bulkDelete (body : Json)

/-- Handle one request. -/
def handle (items : List Obj) : Request → Response × List Obj
  | .create now body => postItems now body items
  | .list => getItems items
  | .get id => getItem id items
  | .update now id body => putItem now id body items
  | .delete id => deleteItem id items
  | .bulkDelete body => deleteItems body items

/-- The collection after a sequence of requests. -/
def run (items : List Obj) : List Request → List Obj
  | [] => items
  | r :: rs => run (handle items r).2 rs


/-! ## Lemmas on objects -/

theorem getProp_eq_none_iff (o : Obj) (k : String) : getProp o k = none ↔ k ∉ keys o := by
  induction o with
  | nil => simp [getProp, keys]
  | cons p rest ih =>
    obtain ⟨k', v⟩ := p
    by_cases h : k' = k
    · simp [getProp, keys, h]
    · have h' : ¬ k = k' := fun e => h e.symm
      simpa [getProp, keys, h, h'] using ih

theorem getProp_map_set (o : Obj) (k k' : String) (v : Json) :
    getProp (o.map (fun p => if p.1 = k then (p.1, v) else p)) k'
      = if k' = k then (getProp o k).map (fun _ => v) else getProp o k' := by
  induction o with
  | nil => simp [getProp]
  | cons p rest ih =>
    obtain ⟨k0, v0⟩ := p
    by_cases h0 : k0 = k
    · subst h0
      simp only [List.map_cons, if_true]
      by_cases h1 : k' = k0
      · simp [getProp, h1]
      · have h1' : ¬ k0 = k' := fun e => h1 e.symm
        simp [getProp, h1, h1', ih]
    · simp only [List.map_cons, h0, if_false]
      by_cases h1 : k' = k
      · subst h1
        simp [getProp, h0, ih]
      · by_cases h2 : k0 = k'
        · simp [getProp, h0, h1, h2]
        · simp [getProp, h0, h1, h2, ih]

theorem getProp_append_new (o : Obj) (k k' : String) (v : Json) (hk : k ∉ keys o) :
    getProp (o ++ [(k, v)]) k' = if k' = k then some v else getProp o k' := by
  induction o with
  | nil =>
    by_cases h : k = k'
    · simp [getProp, h]
    · have h' : ¬ k' = k := fun e => h e.symm
      simp [getProp, h, h']
  | cons p rest ih =>
    obtain ⟨k0, v0⟩ := p
    have hk0 : ¬ k = k0 := by
      intro e; apply hk; simp [keys, e]
    have hrest : k ∉ keys rest := by
      intro e; apply hk; simp only [keys, List.map_cons, List.mem_cons]; exact Or.inr e
    by_cases h0 : k0 = k'
    · have : ¬ k' = k := by rw [← h0]; exact fun e => hk0 e.symm
      simp [getProp, h0, this]
    · simp [getProp, h0, ih hrest]

theorem getProp_insertIndex (n : Nat) (o : Obj) (k k' : String) (v : Json) (hk : k ∉ keys o) :
    getProp (insertIndex n k v o) k' = if k' = k then some v else getProp o k' := by
  have base : ∀ o : Obj, getProp ((k, v) :: o) k' = if k' = k then some v else getProp o k' := by
    intro o
    by_cases h : k = k'
    · simp [getProp, h]
    · have h' : ¬ k' = k := fun e => h e.symm
      simp [getProp, h, h']
  induction o with
  | nil => simpa [insertIndex] using base []
  | cons p rest ih =>
    obtain ⟨k0, v0⟩ := p
    have hk0 : ¬ k = k0 := by
      intro e; apply hk; simp [keys, e]
    have hrest : k ∉ keys rest := by
      intro e; apply hk; simp only [keys, List.map_cons, List.mem_cons]; exact Or.inr e
    unfold insertIndex
    cases hidx : arrayIndex? k0 with
    | none => exact base _
    | some m =>
      by_cases hm : m < n
      · simp only [hm, if_true]
        by_cases h0 : k0 = k'
        · have : ¬ k' = k := by rw [← h0]; exact fun e => hk0 e.symm
          simp [getProp, h0, this]
        · simp [getProp, h0, ih hrest]
      · simp only [hm, if_false]
        exact base _

/-- Reading a property after defining one: the defined property has the new
value, every other property is as before. -/
theorem getProp_setProp (o : Obj) (k k' : String) (v : Json) :
    getProp (setProp o k v) k' = if k' = k then some v else getProp o k' := by
  unfold setProp
  by_cases hk : k ∈ keys o
  · rw [if_pos hk, getProp_map_set]
    have : getProp o k ≠ none := fun e => (getProp_eq_none_iff o k).1 e hk
    cases hg : getProp o k with
    | none => exact absurd hg this
    | some w => simp
  · rw [if_neg hk]
    cases arrayIndex? k with
    | none => exact getProp_append_new o k k' v hk
    | some n => exact getProp_insertIndex n o k k' v hk

theorem getProp_foldl_setProp (m : Obj) (hm : (keys m).Nodup) (t : Obj) (k : String) :
    getProp (m.foldl (fun acc p => setProp acc p.1 p.2) t) k
      = match getProp m k with
        | some v => some v
        | none => getProp t k := by
  induction m generalizing t with
  | nil => simp [getProp]
  | cons p rest ih =>
    obtain ⟨k0, v0⟩ := p
    have hnd : (keys rest).Nodup := by
      simp only [keys, List.map_cons, List.nodup_cons] at hm; exact hm.2
    have hk0 : k0 ∉ keys rest := by
      simp only [keys, List.map_cons, List.nodup_cons] at hm; exact hm.1
    rw [List.foldl_cons, ih hnd]
    by_cases h0 : k0 = k
    · subst h0
      have : getProp rest k0 = none := (getProp_eq_none_iff rest k0).2 hk0
      simp [getProp, this, getProp_setProp]
    · have h0' : ¬ k = k0 := fun e => h0 e.symm
      simp [getProp, h0, h0', getProp_setProp]

/-- Reading a property of `{ ...target, ...src }` for an object `src` with
distinct property names: the value in `src` if it has the property, the value
in `target` otherwise. -/
theorem getProp_spreadInto_obj (t m : Obj) (hm : (keys m).Nodup) (k : String) :
    getProp (spreadInto t (.obj m)) k
      = match getProp m k with
        | some v => some v
        | none => getProp t k := by
  simpa [spreadInto, ownEntries] using getProp_foldl_setProp m hm t k

theorem getProp_spreadInto_nil_obj (m : Obj) (hm : (keys m).Nodup) (k : String) :
    getProp (spreadInto [] (.obj m)) k = getProp m k := by
  rw [getProp_spreadInto_obj [] m hm k]
  cases getProp m k <;> simp [getProp]


/-! ## Lemmas on the collection -/

theorem idIs_iff (id : String) (item : Obj) :
    idIs id item = true ↔ getProp item "id" = some (.str id) := by
  unfold idIs
  cases h : getProp item "id" with
  | none => simp
  | some v => cases v <;> simp

theorem findIndex_eq_none_iff (p : Obj → Bool) (l : List Obj) :
    findIndex p l = none ↔ ∀ x ∈ l, p x = false := by
  induction l with
  | nil => simp [findIndex]
  | cons x xs ih =>
    by_cases hx : p x = true
    · simp [findIndex, hx]
    · simp only [Bool.not_eq_true] at hx
      simp [findIndex, hx, ih]

theorem findIndex_eq_some (p : Obj → Bool) (l : List Obj) (i : Nat)
    (h : findIndex p l = some i) :
    ∃ pre x post, l = pre ++ x :: post ∧ pre.length = i ∧ p x = true ∧
      ∀ y ∈ pre, p y = false := by
  induction l generalizing i with
  | nil => simp [findIndex] at h
  | cons x xs ih =>
    by_cases hx : p x = true
    · simp only [findIndex, hx, if_true, Option.some.injEq] at h
      exact ⟨[], x, xs, rfl, by simpa using h, hx, by simp⟩
    · simp only [Bool.not_eq_true] at hx
      simp only [findIndex, hx, Bool.false_eq_true, if_false, Option.map_eq_some'] at h
      obtain ⟨j, hj, hji⟩ := h
      obtain ⟨pre, y, post, hl, hlen, hy, hpre⟩ := ih j hj
      refine ⟨x :: pre, y, post, by simp [hl], by simp [hlen, hji], hy, ?_⟩
      intro z hz
      rcases List.mem_cons.1 hz with hz | hz
      · rw [hz]; exact hx
      · exact hpre z hz

theorem findIndex_of_first (p : Obj → Bool) (l : List Obj) (k : Nat) (r : Obj)
    (hk : l[k]? = some r) (hr : p r = true)
    (hfirst : ∀ j, j < k → ∀ x, l[j]? = some x → p x = false) :
    findIndex p l = some k := by
  induction l generalizing k with
  | nil => simp at hk
  | cons x xs ih =>
    cases k with
    | zero =>
      simp only [List.getElem?_cons_zero, Option.some.injEq] at hk
      simp [findIndex, hk, hr]
    | succ k =>
      have hx : p x = false := hfirst 0 (Nat.succ_pos k) x (by simp)
      have := ih k (by simpa using hk) (fun j hj y hy => hfirst (j + 1) (by omega) y (by simpa using hy))
      simp [findIndex, hx, this]

theorem createItems_length (now : Nat → Nat) (i : Nat) (elems : List Json) :
    (createItems now i elems).length = elems.length := by
  induction elems generalizing i with
  | nil => simp [createItems]
  | cons e es ih => simp [createItems, ih]

theorem createItems_getElem? (now : Nat → Nat) (i j : Nat) (elems : List Json) :
    (createItems now i elems)[j]?
      = elems[j]?.map (fun e => createItem e (now (2 * (i + j))) (now (2 * (i + j) + 1))) := by
  induction elems generalizing i j with
  | nil => simp [createItems]
  | cons e es ih =>
    cases j with
    | zero => simp [createItems]
    | succ j =>
      simp only [createItems, List.getElem?_cons_succ, ih]
      have : i + 1 + j = i + (j + 1) := by omega
      rw [this]

/-- Reading a field of a created record: `createdAt` and `id` are the
server's, every other field is the input object's. -/
theorem getProp_createItem (o : Obj) (ho : (keys o).Nodup) (tId tCreated : Nat) (f : String) :
    getProp (createItem (.obj o) tId tCreated) f
      = if f = "createdAt" then some (.str (toISOString tCreated))
        else if f = "id" then some (.str (nowString tId))
        else getProp o f := by
  simp only [createItem, getProp_setProp, getProp_spreadInto_nil_obj o ho]


/-! ## Create -/

/-- C4. `POST /items` with an array body of `N` objects (property names
distinct in each) leaves the old records in place and appends exactly `N` new
records in input order; the response is 201 with these `N` records in order;
the `i`-th new record has the server's `createdAt` and `id` and, in every
other field, the value of the `i`-th input object. A body that is a single
object is handled as the one-element array that holds it: the collection
grows by one record and the response is a one-element array. -/
theorem postItems_appends_in_order (now : Nat → Nat) (objs : List Obj) (items : List Obj)
    (hwf : ∀ o ∈ objs, (keys o).Nodup) :
    (∃ created : List Obj,
      (postItems now (.arr (objs.map Json.obj)) items).2 = items ++ created ∧
      created.length = objs.length ∧
      (postItems now (.arr (objs.map Json.obj)) items).1
        = ⟨201, some (.arr (created.map Json.obj))⟩ ∧
      ∀ (i : Nat) (o : Obj), objs[i]? = some o →
        ∃ r : Obj, created[i]? = some r ∧
          ∀ f : String, getProp r f =
            if f = "createdAt" then some (.str (toISOString (now (2 * i + 1))))
            else if f = "id" then some (.str (nowString (now (2 * i))))
            else getProp o f) ∧
    (∀ o : Obj, postItems now (.obj o) items = postItems now (.arr [.obj o]) items ∧
      (postItems now (.obj o) items).2.length = items.length + 1 ∧
      ∃ r : Obj, (postItems now (.obj o) items).1 = ⟨201, some (.arr [.obj r])⟩ ∧
        (postItems now (.obj o) items).2 = items ++ [r]) := by
  refine ⟨⟨createItems now 0 (objs.map Json.obj), ?_, ?_, ?_, ?_⟩, ?_⟩
  · simp [postItems, validationResult]
  · simp [createItems_length]
  · simp [postItems, validationResult]
  · intro i o hio
    refine ⟨createItem (.obj o) (now (2 * i)) (now (2 * i + 1)), ?_, ?_⟩
    · simp [createItems_getElem?, hio]
    · intro f
      exact getProp_createItem o (hwf o (List.getElem?_mem hio)) _ _ f
  · intro o
    refine ⟨?_, ?_, createItem (.obj o) (now 0) (now 1), ?_, ?_⟩ <;>
      simp [postItems, validationResult, createItems]

/-- The batch `[{"name":"Pen"},{"name":"Ink","id":"7"}]` posted to the sample
collection: two records are appended, and the second one has the `id` given
by the clock, not the `"7"` of the body, and keeps its `name`. -/
theorem postItems_appends_in_order_witness :
    (∀ o ∈ [[("name", Json.str "Pen")], [("name", Json.str "Ink"), ("id", Json.str "7")]],
      (keys o).Nodup) ∧
    (∃ created : List Obj,
      (postItems (fun k => 1700000000000 + k)
        (.arr ([[("name", Json.str "Pen")],
          [("name", Json.str "Ink"), ("id", Json.str "7")]].map Json.obj))
        (sampleData (fun _ => 1690000000000))).2
          = sampleData (fun _ => 1690000000000) ++ created ∧
      created.length = 2 ∧
      ∃ r : Obj, created[1]? = some r ∧
        getProp r "id" = some (.str "1700000000002") ∧
        getProp r "name" = some (.str "Ink")) := by
  have hwf : ∀ o ∈ [[("name", Json.str "Pen")], [("name", Json.str "Ink"), ("id", Json.str "7")]],
      (keys o).Nodup := by decide
  obtain ⟨⟨created, h1, h2, _, h4⟩, _⟩ :=
    postItems_appends_in_order (fun k => 1700000000000 + k)
      [[("name", Json.str "Pen")], [("name", Json.str "Ink"), ("id", Json.str "7")]]
      (sampleData (fun _ => 1690000000000)) hwf
  obtain ⟨r, hr, hf⟩ := h4 1 [("name", Json.str "Ink"), ("id", Json.str "7")] rfl
  refine ⟨hwf, created, h1, h2, r, hr, ?_, ?_⟩
  · rw [hf "id"]; decide
  · rw [hf "name"]; decide

/-! ## Update -/

theorem putItem_of_findIndex (now : Nat) (id : String) (body : Json) (items : List Obj)
    (k : Nat) (h : findIndex (idIs id) items = some k) :
    putItem now id body items
      = (⟨200, some (.obj (setProp (spreadInto (spreadInto [] (.obj (items.getD k []))) body)
            "createdAt" (.str (toISOString now))))⟩,
         items.set k (setProp (spreadInto (spreadInto [] (.obj (items.getD k []))) body)
            "createdAt" (.str (toISOString now)))) := by
  simp [putItem, validationResult, h]

/-- C5. `PUT /items/:id` on a collection whose first record with that `id`
is `r`, at index `k`, with a body object `b` (property names distinct in `r`
and in `b`): the response is 200 with the record `u` now stored at index `k`;
the collection keeps its length and every record at another index; `u` has
`createdAt` equal to the clock reading and, in every other field `f`, the
value of `b` when `b` has `f` and the value of `r` otherwise. -/
theorem putItem_shallow_merge (now : Nat) (id : String) (b : Obj) (items : List Obj)
    (k : Nat) (r : Obj)
    (hk : items[k]? = some r) (hid : getProp r "id" = some (.str id))
    (hfirst : ∀ j, j < k → ∀ x, items[j]? = some x → getProp x "id" ≠ some (.str id))
    (hr : (keys r).Nodup) (hb : (keys b).Nodup) :
    ∃ u : Obj,
      (putItem now id (.obj b) items).1 = ⟨200, some (.obj u)⟩ ∧
      (putItem now id (.obj b) items).2.length = items.length ∧
      (putItem now id (.obj b) items).2[k]? = some u ∧
      (∀ j, j ≠ k → (putItem now id (.obj b) items).2[j]? = items[j]?) ∧
      getProp u "createdAt" = some (.str (toISOString now)) ∧
      ∀ f : String, f ≠ "createdAt" →
        getProp u f = match getProp b f with
          | some v => some v
          | none => getProp r f := by
  have hfind : findIndex (idIs id) items = some k := by
    apply findIndex_of_first (idIs id) items k r hk ((idIs_iff id r).2 hid)
    intro j hj x hx
    have := hfirst j hj x hx
    cases hc : idIs id x with
    | false => rfl
    | true => exact absurd ((idIs_iff id x).1 hc) this
  have hklt : k < items.length := by
    rcases List.getElem?_eq_some_iff.1 hk with ⟨h, _⟩
    exact h
  have hget : items.getD k [] = r := by
    simp [List.getD, hk]
  rw [putItem_of_findIndex now id (.obj b) items k hfind, hget]
  refine ⟨_, rfl, by simp, by simp [hklt], ?_, by simp [getProp_setProp], ?_⟩
  · intro j hj
    simp [List.getElem?_set, Ne.symm hj]
  · intro f hf
    simp only [getProp_setProp, hf, if_false]
    rw [getProp_spreadInto_obj _ b hb f, getProp_spreadInto_nil_obj r hr f]

/-- The update `PUT /items/1` with body `{"name":"Chair v2"}` on the sample
collection. -/
theorem putItem_shallow_merge_witness :
    ∃ u : Obj,
      (putItem 1700000000000 "1" (.obj [("name", .str "Chair v2")])
        (sampleData (fun _ => 1690000000000))).1 = ⟨200, some (.obj u)⟩ ∧
      getProp u "name" = some (.str "Chair v2") ∧
      getProp u "description" = some (.str "Comfortable and stylish chair") ∧
      getProp u "createdAt" = some (.str "2023-11-14T22:13:20.000Z") := by
  obtain ⟨u, h1, _, _, _, h5, h6⟩ :=
    putItem_shallow_merge 1700000000000 "1" [("name", .str "Chair v2")]
      (sampleData (fun _ => 1690000000000)) 0
      [("id", .str "1"), ("name", .str "Elegant Chair"),
       ("description", .str "Comfortable and stylish chair"),
       ("createdAt", .str (toISOString 1690000000000))]
      (by rfl) (by decide) (by intro j hj; omega) (by decide) (by decide)
  refine ⟨u, h1, ?_, ?_, ?_⟩
  · rw [h6 "name" (by decide)]; rfl
  · rw [h6 "description" (by decide)]; rfl
  · rw [h5]; decide

/-- C9. `PUT /items/:id` when no record has that `id` answers 404
`{"message":"Item not found"}` and leaves the collection as it was; when some
record has that `id` the status is 200. -/
theorem putItem_missing_id (now : Nat) (id : String) (body : Json) (items : List Obj) :
    ((∀ r ∈ items, getProp r "id" ≠ some (.str id)) →
      putItem now id body items
        = (⟨404, some (.obj [("message", .str "Item not found")])⟩, items)) ∧
    ((∃ r ∈ items, getProp r "id" = some (.str id)) →
      (putItem now id body items).1.status = 200) := by
  constructor
  · intro h
    have hnone : findIndex (idIs id) items = none := by
      rw [findIndex_eq_none_iff]
      intro x hx
      cases hc : idIs id x with
      | false => rfl
      | true => exact absurd ((idIs_iff id x).1 hc) (h x hx)
    simp [putItem, validationResult, hnone, message]
  · rintro ⟨r, hr, hid⟩
    cases hf : findIndex (idIs id) items with
    | none =>
      have := (findIndex_eq_none_iff _ _).1 hf r hr
      rw [(idIs_iff id r).2 hid] at this
      exact absurd this (by decide)
    | some k => rw [putItem_of_findIndex now id body items k hf]

/-- The updates `PUT /items/999` and `PUT /items/3` on the sample collection. -/
theorem putItem_missing_id_witness :
    putItem 1700000000000 "999" (.obj [("name", .str "Ghost")])
        (sampleData (fun _ => 1690000000000))
      = (⟨404, some (.obj [("message", .str "Item not found")])⟩,
          sampleData (fun _ => 1690000000000)) ∧
    (putItem 1700000000000 "3" (.obj [("name", .str "Rug v2")])
        (sampleData (fun _ => 1690000000000))).1.status = 200 :=
  ⟨(putItem_missing_id 1700000000000 "999" (.obj [("name", .str "Ghost")])
      (sampleData (fun _ => 1690000000000))).1 (by decide),
   (putItem_missing_id 1700000000000 "3" (.obj [("name", .str "Rug v2")])
      (sampleData (fun _ => 1690000000000))).2 (by decide)⟩


/-! ## Delete -/

theorem includes_str_iff (ids : List Json) (s : String) :
    includes ids (some (.str s)) = true ↔ Json.str s ∈ ids := by
  simp only [includes, List.any_eq_true]
  constructor
  · rintro ⟨x, hx, hs⟩
    cases x <;> simp [sameValueZero] at hs
    rw [← hs]; exact hx
  · intro h
    exact ⟨_, h, by simp [sameValueZero]⟩

/-- C6. `DELETE /items` with a non-empty array body answers 204 with no body
and keeps exactly the records whose `id` is not included in the array, in
their original order; a record whose `id` is a string stays if and only if
that string is not an element of the array. -/
theorem deleteItems_removes_listed (ids : List Json) (items : List Obj) (hne : ids ≠ []) :
    (deleteItems (.arr ids) items).1 = ⟨204, none⟩ ∧
    (deleteItems (.arr ids) items).2
      = items.filter (fun r => ! includes ids (getProp r "id")) ∧
    (deleteItems (.arr ids) items).2.Sublist items ∧
    (∀ r ∈ (deleteItems (.arr ids) items).2, includes ids (getProp r "id") = false) ∧
    (∀ r ∈ items, includes ids (getProp r "id") = false →
      r ∈ (deleteItems (.arr ids) items).2) ∧
    (∀ (r : Obj) (s : String), getProp r "id" = some (.str s) →
      (r ∈ (deleteItems (.arr ids) items).2 ↔ r ∈ items ∧ Json.str s ∉ ids)) := by
  have hlen : ¬ ids.length = 0 := by
    intro h; exact hne (List.length_eq_zero.1 h)
  have hres : deleteItems (.arr ids) items
      = (⟨204, none⟩, items.filter (fun r => ! includes ids (getProp r "id"))) := by
    simp [deleteItems, hlen]
  rw [hres]
  refine ⟨rfl, rfl, List.filter_sublist _, ?_, ?_, ?_⟩
  · intro r hr
    simpa using (List.mem_filter.1 hr).2
  · intro r hr hinc
    exact List.mem_filter.2 ⟨hr, by simp [hinc]⟩
  · intro r s hs
    simp only [List.mem_filter, hs, Bool.not_eq_true', ← includes_str_iff]
    simp

/-- The bulk delete of `["1","999","1","4"]` from the sample collection: ids
present, absent and repeated. -/
theorem deleteItems_removes_listed_witness :
    [Json.str "1", Json.str "999", Json.str "1", Json.str "4"] ≠ [] ∧
    (deleteItems (.arr [.str "1", .str "999", .str "1", .str "4"])
      (sampleData (fun _ => 1690000000000))).1 = ⟨204, none⟩ ∧
    (deleteItems (.arr [.str "1", .str "999", .str "1", .str "4"])
      (sampleData (fun _ => 1690000000000))).2.Sublist (sampleData (fun _ => 1690000000000)) :=
  ⟨by decide,
   (deleteItems_removes_listed [.str "1", .str "999", .str "1", .str "4"]
      (sampleData (fun _ => 1690000000000)) (by decide)).1,
   (deleteItems_removes_listed [.str "1", .str "999", .str "1", .str "4"]
      (sampleData (fun _ => 1690000000000)) (by decide)).2.2.1⟩

/-- C7. `DELETE /items` answers 400 `{"message":"Invalid request body"}` if
and only if the body is not an array or is the empty array (any other body is
answered 204), and then the collection is left as it was. -/
theorem deleteItems_validates_body (body : Json) (items : List Obj) :
    ((deleteItems body items).1
        = ⟨400, some (.obj [("message", .str "Invalid request body")])⟩
      ↔ ((¬ ∃ ids, body = .arr ids) ∨ body = .arr [])) ∧
    ((deleteItems body items).1.status = 400
      ↔ ((¬ ∃ ids, body = .arr ids) ∨ body = .arr [])) ∧
    (((¬ ∃ ids, body = .arr ids) ∨ body = .arr []) → (deleteItems body items).2 = items) := by
  cases body with
  | arr ids =>
    cases ids with
    | nil => simp [deleteItems, message]
    | cons x xs => simp [deleteItems]
  | null => simp [deleteItems, message]
  | bool b => simp [deleteItems, message]
  | num n => simp [deleteItems, message]
  | str s => simp [deleteItems, message]
  | obj m => simp [deleteItems, message]

/-- The bulk deletes with bodies `[]` and `{}` on the sample collection. -/
theorem deleteItems_validates_body_witness :
    deleteItems (.arr []) (sampleData (fun _ => 1690000000000))
      = (⟨400, some (.obj [("message", .str "Invalid request body")])⟩,
          sampleData (fun _ => 1690000000000)) ∧
    (deleteItems (.obj []) (sampleData (fun _ => 1690000000000))).2
      = sampleData (fun _ => 1690000000000) :=
  ⟨Prod.ext
    ((deleteItems_validates_body (.arr []) (sampleData (fun _ => 1690000000000))).1.2
      (Or.inr rfl))
    ((deleteItems_validates_body (.arr []) (sampleData (fun _ => 1690000000000))).2.2
      (Or.inr rfl)),
   (deleteItems_validates_body (.obj []) (sampleData (fun _ => 1690000000000))).2.2
      (Or.inl (by simp))⟩

/-- C8. `DELETE /items/:id` answers 404 `{"message":"Item not found"}` if and
only if no record has that `id`, and then the collection is left as it was;
otherwise it answers 204 and removes the first record with that `id` and
nothing else, the other records keeping their order. -/
theorem deleteItem_removes_first (id : String) (items : List Obj) :
    ((deleteItem id items).1 = ⟨404, some (.obj [("message", .str "Item not found")])⟩
      ↔ ∀ r ∈ items, getProp r "id" ≠ some (.str id)) ∧
    ((∀ r ∈ items, getProp r "id" ≠ some (.str id)) → (deleteItem id items).2 = items) ∧
    ((∃ r ∈ items, getProp r "id" = some (.str id)) →
      (deleteItem id items).1 = ⟨204, none⟩ ∧
      (deleteItem id items).2.length + 1 = items.length ∧
      ∃ pre r post, items = pre ++ r :: post ∧
        (∀ x ∈ pre, getProp x "id" ≠ some (.str id)) ∧
        getProp r "id" = some (.str id) ∧
        (deleteItem id items).2 = pre ++ post) := by
  have hnone : findIndex (idIs id) items = none
      ↔ ∀ r ∈ items, getProp r "id" ≠ some (.str id) := by
    rw [findIndex_eq_none_iff]
    constructor
    · intro h r hr hid
      have := h r hr
      rw [(idIs_iff id r).2 hid] at this
      exact absurd this (by decide)
    · intro h x hx
      cases hc : idIs id x with
      | false => rfl
      | true => exact absurd ((idIs_iff id x).1 hc) (h x hx)
  cases hf : findIndex (idIs id) items with
  | none =>
    have hall := hnone.1 hf
    refine ⟨by simpa [deleteItem, hf, message] using hall, by simp [deleteItem, hf], ?_⟩
    rintro ⟨r, hr, hid⟩
    exact absurd hid (hall r hr)
  | some k =>
    obtain ⟨pre, r, post, hl, hlen, hr, hpre⟩ := findIndex_eq_some _ _ _ hf
    have hnot : ¬ ∀ r ∈ items, getProp r "id" ≠ some (.str id) := by
      intro h
      rw [hnone.2 h] at hf
      exact absurd hf (by simp)
    have herase : items.eraseIdx k = pre ++ post := by
      rw [hl, ← hlen]
      simp [List.eraseIdx_append_of_length_le]
    refine ⟨by simp [deleteItem, hf, hnot], fun h => absurd h hnot, ?_⟩
    intro _
    refine ⟨by simp [deleteItem, hf], ?_, pre, r, post, hl, ?_, (idIs_iff id r).1 hr, ?_⟩
    · simp only [deleteItem, hf, herase]
      rw [hl]; simp; omega
    · intro x hx hid
      have := hpre x hx
      rw [(idIs_iff id x).2 hid] at this
      exact absurd this (by decide)
    · simp [deleteItem, hf, herase]

/-- The deletes `DELETE /items/999` and `DELETE /items/2` on the sample
collection. -/
theorem deleteItem_removes_first_witness :
    (deleteItem "999" (sampleData (fun _ => 1690000000000))).2
      = sampleData (fun _ => 1690000000000) ∧
    (deleteItem "2" (sampleData (fun _ => 1690000000000))).1 = ⟨204, none⟩ ∧
    (deleteItem "2" (sampleData (fun _ => 1690000000000))).2.length + 1
      = (sampleData (fun _ => 1690000000000)).length :=
  ⟨(deleteItem_removes_first "999" (sampleData (fun _ => 1690000000000))).2.1 (by decide),
   ((deleteItem_removes_first "2" (sampleData (fun _ => 1690000000000))).2.2 (by decide)).1,
   ((deleteItem_removes_first "2" (sampleData (fun _ => 1690000000000))).2.2 (by decide)).2.1⟩

/-! ## Identity of records -/

/-- C1. `PUT /items/1` with body `{"id":"2"}` on the sample collection
answers 200 with a record whose `id` is `"2"`, and stores that record at
index 0: the `id` of the updated record is the body's, not the original
`"1"`, and the collection now has two records with `id` `"2"`. -/
theorem putItem_takes_id_from_body :
    putItem 1700000000000 "1" (.obj [("id", .str "2")]) (sampleData (fun _ => 1690000000000))
      = (⟨200, some (.obj [("id", .str "2"), ("name", .str "Elegant Chair"),
            ("description", .str "Comfortable and stylish chair"),
            ("createdAt", .str "2023-11-14T22:13:20.000Z")])⟩,
         [ [("id", .str "2"), ("name", .str "Elegant Chair"),
            ("description", .str "Comfortable and stylish chair"),
            ("createdAt", .str "2023-11-14T22:13:20.000Z")],
           [("id", .str "2"), ("name", .str "Modern Desk"),
            ("description", .str "Spacious and functional work desk"),
            ("createdAt", .str "2023-07-22T04:26:40.000Z")],
           [("id", .str "3"), ("name", .str "Cozy Rug"),
            ("description", .str "Soft and warm rug for your living room"),
            ("createdAt", .str "2023-07-22T04:26:40.000Z")],
           [("id", .str "4"), ("name", .str "Stylish Lamp"),
            ("description", .str "Modern and elegant table lamp"),
            ("createdAt", .str "2023-07-22T04:26:40.000Z")],
           [("id", .str "5"), ("name", .str "Comfortable Sofa"),
            ("description", .str "Relaxing and spacious sofa"),
            ("createdAt", .str "2023-07-22T04:26:40.000Z")] ]) := by
  decide

/-- C2. `POST /items` with body `[{"name":"Pen"},{"name":"Ink"}]`, every
clock reading of the request being 1700000000000, answers 201 with two
records that both have `id` `"1700000000000"`. -/
theorem postItems_same_tick_same_id :
    (postItems (fun _ => 1700000000000)
        (.arr [.obj [("name", .str "Pen")], .obj [("name", .str "Ink")]])
        (sampleData (fun _ => 1690000000000))).1
      = ⟨201, some (.arr [
          .obj [("name", .str "Pen"), ("id", .str "1700000000000"),
            ("createdAt", .str "2023-11-14T22:13:20.000Z")],
          .obj [("name", .str "Ink"), ("id", .str "1700000000000"),
            ("createdAt", .str "2023-11-14T22:13:20.000Z")]])⟩ := by
  decide

/-- C3. From the sample collection, the single request `POST /items` with
body `[{"name":"Pen"},{"name":"Ink"}]` handled within one clock tick, and the
single request `PUT /items/1` with body `{"id":"2"}`, each lead to a
collection in which two records have the same `id`. -/
theorem run_breaks_id_uniqueness :
    ¬ ((run (sampleData (fun _ => 1690000000000))
          [.create (fun _ => 1700000000000)
            (.arr [.obj [("name", .str "Pen")], .obj [("name", .str "Ink")]])]).map
        (fun r => getProp r "id")).Nodup ∧
    ¬ ((run (sampleData (fun _ => 1690000000000))
          [.update 1700000000000 "1" (.obj [("id", .str "2")])]).map
        (fun r => getProp r "id")).Nodup := by
  decide

/-- C10. After `POST /items` with body `[{"name":"Pen"},{"name":"Ink"}]`
handled within one clock tick, the second returned record is the `Ink` record
with `id` `"1700000000000"`, and `GET /items/1700000000000` answers 200 with
the `Pen` record. -/
theorem getItem_after_postItems_returns_other_record :
    (postItems (fun _ => 1700000000000)
        (.arr [.obj [("name", .str "Pen")], .obj [("name", .str "Ink")]])
        (sampleData (fun _ => 1690000000000))).1.body
      = some (.arr [
          .obj [("name", .str "Pen"), ("id", .str "1700000000000"),
            ("createdAt", .str "2023-11-14T22:13:20.000Z")],
          .obj [("name", .str "Ink"), ("id", .str "1700000000000"),
            ("createdAt", .str "2023-11-14T22:13:20.000Z")]]) ∧
    (getItem "1700000000000"
        (postItems (fun _ => 1700000000000)
          (.arr [.obj [("name", .str "Pen")], .obj [("name", .str "Ink")]])
          (sampleData (fun _ => 1690000000000))).2).1
      = ⟨200, some (.obj [("name", .str "Pen"), ("id", .str "1700000000000"),
            ("createdAt", .str "2023-11-14T22:13:20.000Z")])⟩ := by
  decide

end Server
